import Mathlib

/-!
Verification of the appetit_api backend's core business logic against its
specification: order-status transition guards, promo-code discount
evaluation, order pricing, and the business-hours gate.

Each definition is a shallow embedding of the corresponding Python source:
  - app/api/v1/routers/admin_orders.py  (admin status update)
  - app/api/v1/routers/courier.py       (courier status update)
  - app/api/v1/routers/orders.py        (create_order pricing, cancel_order)
  - app/services/promo/validator.py     (calculate_discount)
  - app/services/business/hours.py      (BusinessHoursService)

Python Decimal values are modelled as rationals; instants as integers;
times of day as natural numbers of minutes since midnight.
-/

namespace Appetit

/-! Order status transition guards.

Order statuses are stored as strings in the database; the endpoints compare
them as strings, so the embedding keeps them as `String`.
-/

/-- Set ALLOWED_STATUSES from admin_orders.py: the five order statuses an
admin may set. -/
def ALLOWED_STATUSES : List String :=
  ["NEW", "COOKING", "ON_WAY", "DELIVERED", "CANCELLED"]

/-- The five order statuses of the data model (same set as
`ALLOWED_STATUSES`; named separately for use as a domain of
quantification). -/
def orderStatuses : List String :=
  ["NEW", "COOKING", "ON_WAY", "DELIVERED", "CANCELLED"]

/-- List valid_courier_statuses from courier.py update_order_status: the
target statuses a courier may request at all. -/
def valid_courier_statuses : List String :=
  ["COOKING", "ON_WAY", "DELIVERED", "CANCELLED"]

/-- Dict valid_transitions from courier.py update_order_status; the
lookup .get(current_status, []) is modelled by the catch-all arm. -/
def valid_transitions (current : String) : List String :=
  if current = "NEW" then ["COOKING", "CANCELLED"]
  else if current = "COOKING" then ["ON_WAY", "CANCELLED"]
  else if current = "ON_WAY" then ["DELIVERED", "CANCELLED"]
  else if current = "DELIVERED" then []
  else if current = "CANCELLED" then []
  else []

/-- Guard of courier.py `update_order_status`: the request succeeds iff the
requested status passes the courier whitelist and the transition table.
(The endpoint raises HTTP 400 otherwise; `true` means the status is
written.) -/
def courier_update_allowed (current requested : String) : Bool :=
  requested ∈ valid_courier_statuses && requested ∈ valid_transitions current

/-- Guard of admin_orders.py `update_order_status`: the endpoint checks only
that the requested status is in `ALLOWED_STATUSES`; the current status is
never consulted. -/
def admin_update_allowed (_current requested : String) : Bool :=
  requested ∈ ALLOWED_STATUSES

/-- List cancellable_statuses from orders.py cancel_order. -/
def cancellable_statuses : List String :=
  ["NEW", "PENDING", "CONFIRMED"]

/-- Guard of orders.py `cancel_order`: cancellation (setting the status to
CANCELLED) is allowed iff the current status is in `cancellable_statuses`. -/
def cancel_allowed (current : String) : Bool :=
  current ∈ cancellable_statuses

/-- The edge set of the status state machine as written in the spec
(section 4.4): NEW→{COOKING,CANCELLED}, COOKING→{ON_WAY,CANCELLED},
ON_WAY→{DELIVERED,CANCELLED}. -/
def specEdges : List (String × String) :=
  [("NEW", "COOKING"), ("NEW", "CANCELLED"),
   ("COOKING", "ON_WAY"), ("COOKING", "CANCELLED"),
   ("ON_WAY", "DELIVERED"), ("ON_WAY", "CANCELLED")]

/-! Decimal arithmetic.

Python `Decimal.quantize(Decimal('0.01'))` rounds to two decimal places
with the default context rounding ROUND_HALF_EVEN. -/

/-- Round a rational to the nearest integer, ties to the even integer
(ROUND_HALF_EVEN, as used by Python Decimal contexts by default). -/
def roundHalfEven (x : ℚ) : ℤ :=
  let n := ⌊x⌋
  let r := x - n
  if r < 1 / 2 then n
  else if 1 / 2 < r then n + 1
  else if n % 2 = 0 then n else n + 1

/-- Model of d.quantize(Decimal('0.01')): round to two decimal places,
half-to-even. -/
def quantize2 (x : ℚ) : ℚ :=
  (roundHalfEven (x * 100) : ℚ) / 100

/-! Promo codes.

`models.Promocode` keeps the persisted columns relevant to evaluation;
`valid_from` is *not* a column: the model defines it as a property that
always returns `None` (its setter is a no-op placeholder). `min_subtotal`
and `valid_to` are alias properties for `min_order_amount` and
`expires_at`. `value` is a nullable numeric column. -/

structure Promocode where
  code : String
  kind : String
  value : Option ℚ
  min_order_amount : Option ℚ
  is_active : Bool
  expires_at : Option ℤ
deriving DecidableEq, Repr

/-- Alias property `min_subtotal` of `models.Promocode`. -/
def Promocode.min_subtotal (p : Promocode) : Option ℚ :=
  p.min_order_amount

/-- Alias property `valid_to` of `models.Promocode`. -/
def Promocode.valid_to (p : Promocode) : Option ℤ :=
  p.expires_at

/-- Property `valid_from` of `models.Promocode`: a placeholder that is not
persisted in the current schema and always returns `None`. -/
def Promocode.valid_from (_p : Promocode) : Option ℤ :=
  none

/-- Result type of `calculate_discount` (promo/validator.py). -/
structure PromoValidationResult where
  valid : Bool
  discount : ℚ
  reason : Option String
deriving DecidableEq, Repr

/-- Query db.query(Promocode).filter(Promocode.code == code).first():
case-sensitive exact-match lookup in the promo table. -/
def promoLookup (db : List Promocode) (code : String) : Option Promocode :=
  db.find? (fun p => p.code == code)

/-- Check promo.valid_from and now < promo.valid_from (truthiness of a
datetime is "is not None"). -/
def beforeStart (p : Promocode) (now : ℤ) : Bool :=
  match p.valid_from with
  | some vf => now < vf
  | none => false

/-- Check promo.valid_to and now > promo.valid_to. -/
def afterEnd (p : Promocode) (now : ℤ) : Bool :=
  match p.valid_to with
  | some vt => vt < now
  | none => false

/-- Check promo.min_subtotal is not None and subtotal below it. -/
def belowMin (p : Promocode) (subtotal : ℚ) : Bool :=
  match p.min_subtotal with
  | some m => subtotal < m
  | none => false

/-- The discount computed by the kind branch of `calculate_discount`,
before clamping. `Decimal(str(promo.value))` raises InvalidOperation when
`value` is NULL (str(None) is not a numeral), modelled as `none`; an
unrecognized kind leaves the initial `Decimal('0.0')`. -/
def computedDiscount (p : Promocode) (subtotal : ℚ) : Option ℚ :=
  if p.kind = "percent" then
    match p.value with
    | some v => some (quantize2 (subtotal * v / 100))
    | none => none
  else if p.kind = "amount" then
    match p.value with
    | some v => some v
    | none => none
  else
    some 0

/-- Function calculate_discount from app/services/promo/validator.py. The
database session is modelled as the list of stored promo rows and
`datetime.utcnow()` as the parameter `now`; `none` models an uncaught
exception (NULL `value` reached by the percent/amount branch). -/
def calculate_discount (db : List Promocode) (code : Option String)
    (subtotal : ℚ) (now : ℤ) : Option PromoValidationResult :=
  match code with
  | none => some { valid := true, discount := 0, reason := none }
  | some c =>
    if c = "" then some { valid := true, discount := 0, reason := none }
    else
      match promoLookup db c with
      | none =>
        some { valid := false, discount := 0, reason := some "invalid_or_inactive" }
      | some promo =>
        if promo.is_active = false then
          some { valid := false, discount := 0, reason := some "invalid_or_inactive" }
        else if beforeStart promo now then
          some { valid := false, discount := 0, reason := some "not_started" }
        else if afterEnd promo now then
          some { valid := false, discount := 0, reason := some "expired" }
        else if belowMin promo subtotal then
          some { valid := false, discount := 0, reason := some "min_subtotal_not_met" }
        else
          (computedDiscount promo subtotal).map
            (fun d => { valid := true, discount := min d subtotal, reason := none })

/-- Final total of orders.py create_order:
max(Decimal('0.0'), subtotal - discount).quantize(Decimal('0.01')). -/
def order_total (subtotal discount : ℚ) : ℚ :=
  quantize2 (max 0 (subtotal - discount))

/-! Order pricing, from orders.py create_order. Business-hours gating and
modification-type validation happen before the pricing loop in the endpoint
and are modelled separately; the pricing computation itself starts at the
items-required check and ends with the total. -/

/-- Menu item row as read by create_order (models.MenuItem restricted to
the fields the pricing loop uses). -/
structure MenuItemRec where
  id : ℕ
  price : ℚ
  is_active : Bool
deriving DecidableEq, Repr

/-- One entry of the create_order payload items list. -/
structure OrderItemReq where
  item_id : ℕ
  qty : ℤ
deriving DecidableEq, Repr

/-- HTTP-400 rejections of the create_order pricing stage, plus the
uncaught InvalidOperation a NULL promo value would raise. -/
inductive PricingError where
  | itemsRequired : PricingError
  | invalidItem : ℕ → PricingError
  | invalidQty : PricingError
  | promoValueCrash : PricingError
deriving DecidableEq, Repr

/-- Subtotal, discount and total snapshot stored on the order row. -/
structure PricingResult where
  subtotal : ℚ
  discount : ℚ
  total : ℚ
deriving DecidableEq, Repr

/-- Lookup in items_map (built from the MenuItem query keyed by id). -/
def menuLookup (menu : List MenuItemRec) (id : ℕ) : Option MenuItemRec :=
  menu.find? (fun m => m.id == id)

/-- The per-item loop of create_order: reject a missing or inactive item
and a non-positive quantity; otherwise accumulate
line_total = (unit_price * qty).quantize(Decimal('0.01')). -/
def priceLines (menu : List MenuItemRec) : List OrderItemReq → Except PricingError ℚ
  | [] => Except.ok 0
  | it :: rest =>
    match menuLookup menu it.item_id with
    | none => Except.error (PricingError.invalidItem it.item_id)
    | some mi =>
      if mi.is_active = false then Except.error (PricingError.invalidItem it.item_id)
      else if it.qty ≤ 0 then Except.error PricingError.invalidQty
      else
        match priceLines menu rest with
        | Except.error e => Except.error e
        | Except.ok s => Except.ok (quantize2 (mi.price * it.qty) + s)

/-- Pricing stage of create_order: the items-required guard, the item
loop, the promo evaluation (discount kept only when valid), and the
clamped total. -/
def create_order_pricing (menu : List MenuItemRec) (items : List OrderItemReq)
    (db : List Promocode) (promocode : Option String) (now : ℤ) :
    Except PricingError PricingResult :=
  if items = [] then Except.error PricingError.itemsRequired
  else
    match priceLines menu items with
    | Except.error e => Except.error e
    | Except.ok subtotal =>
      match calculate_discount db promocode subtotal now with
      | none => Except.error PricingError.promoValueCrash
      | some promoRes =>
        let discount := if promoRes.valid then promoRes.discount else 0
        Except.ok { subtotal := subtotal, discount := discount,
                    total := order_total subtotal discount }

/-! Business hours, from app/services/business/hours.py. Instants are
modelled as a day index (with weekday = day % 7, day 0 a Monday) and a
time of day in minutes since midnight, already in the business timezone
(the service first converts the datetime to its fixed UTC+5 offset). -/

/-- Entry of the BusinessHoursService.default_hours dict for one weekday. -/
structure BusinessHours where
  day : ℕ
  open_time : Option ℕ
  close_time : Option ℕ
  is_closed : Bool
deriving DecidableEq, Repr

/-- Result of BusinessHoursService.is_open_at_time; a next-open instant is
a (day, minutes) pair (datetime.combine of a date and an opening time). -/
structure BusinessHoursValidationResult where
  is_open : Bool
  reason : Option String
  next_open_time : Option (ℕ × ℕ)
deriving DecidableEq, Repr

/-- Loop of _get_next_open_time: for i in range(1, 8), return the first
day day+i whose schedule entry exists, is not closed and has an opening
time; fuel is the number of loop iterations left. -/
def scan_next_open (hours : ℕ → Option BusinessHours) (day : ℕ) :
    ℕ → ℕ → Option (ℕ × ℕ)
  | _, 0 => none
  | i, fuel + 1 =>
    match hours ((day + i) % 7) with
    | some h =>
      if h.is_closed = false then
        match h.open_time with
        | some ot => some (day + i, ot)
        | none => scan_next_open hours day (i + 1) fuel
      else scan_next_open hours day (i + 1) fuel
    | none => scan_next_open hours day (i + 1) fuel

/-- BusinessHoursService._get_next_open_time: today's opening instant when
still before opening on a non-closed configured day, else the 7-day
forward scan. -/
def get_next_open_time (hours : ℕ → Option BusinessHours) (day tod : ℕ) :
    Option (ℕ × ℕ) :=
  let todayResult : Option (ℕ × ℕ) :=
    match hours (day % 7) with
    | some h =>
      if h.is_closed = false then
        match h.open_time with
        | some ot => if tod < ot then some (day, ot) else none
        | none => none
      else none
    | none => none
  match todayResult with
  | some r => some r
  | none => scan_next_open hours day 1 7

/-- BusinessHoursService.is_open_at_time on a schedule (the mutable
default_hours dict, passed explicitly) and an instant in business time. -/
def is_open_at_time (hours : ℕ → Option BusinessHours) (day tod : ℕ) :
    BusinessHoursValidationResult :=
  match hours (day % 7) with
  | none => ⟨false, some "no_hours_defined", none⟩
  | some bh =>
    if bh.is_closed then
      ⟨false, some "closed_today", get_next_open_time hours day tod⟩
    else
      match bh.open_time, bh.close_time with
      | some ot, some ct =>
        if ot ≤ tod ∧ tod ≤ ct then ⟨true, none, none⟩
        else
          ⟨false, some (if tod < ot then "before_opening" else "after_closing"),
            get_next_open_time hours day tod⟩
      | _, _ => ⟨false, some "hours_not_configured", none⟩

/-- List [i, i+1, ..., i+n-1] of candidate day offsets. -/
def daysFrom (i : ℕ) : ℕ → List ℕ
  | 0 => []
  | fuel + 1 => i :: daysFrom (i + 1) fuel

/-- Declarative reading of the spec sentence for next_open_time: the first
opening instant found when scanning forward day by day, offsets 1 to 7
(spec section 4.3); to be compared with the scan loop of the source. -/
def firstOpenForward (hours : ℕ → Option BusinessHours) (day : ℕ) :
    Option (ℕ × ℕ) :=
  ([1, 2, 3, 4, 5, 6, 7] : List ℕ).findSome? (fun j =>
    match hours ((day + j) % 7) with
    | some h =>
      if h.is_closed = false then h.open_time.map (fun ot => (day + j, ot))
      else none
    | none => none)

/-- Schedule installed by BusinessHoursService.__init__ (minutes since
midnight: Mon-Fri 09:00-22:00, Sat 10:00-23:00, Sun 10:00-21:00). -/
def default_hours (w : ℕ) : Option BusinessHours :=
  if w = 0 then some ⟨0, some 540, some 1320, false⟩
  else if w = 1 then some ⟨1, some 540, some 1320, false⟩
  else if w = 2 then some ⟨2, some 540, some 1320, false⟩
  else if w = 3 then some ⟨3, some 540, some 1320, false⟩
  else if w = 4 then some ⟨4, some 540, some 1320, false⟩
  else if w = 5 then some ⟨5, some 600, some 1380, false⟩
  else if w = 6 then some ⟨6, some 600, some 1260, false⟩
  else none

end Appetit

namespace Appetit

/-- C2: the courier-endpoint transition guard, restricted to the five order
statuses, succeeds exactly on the spec's edge set — in particular it fails
for every request from DELIVERED or CANCELLED, for every self-transition,
and for the state-skipping pair (NEW, ON_WAY). -/
theorem courier_guard_matches_spec_edges (current requested : String)
    (hc : current ∈ orderStatuses) (hr : requested ∈ orderStatuses) :
    courier_update_allowed current requested = true ↔
      (current, requested) ∈ specEdges := by
  simp only [orderStatuses, List.mem_cons, List.not_mem_nil, or_false] at hc hr
  rcases hc with h | h | h | h | h <;> subst h <;>
    rcases hr with h | h | h | h | h <;> subst h <;> decide

/-- Witness for `courier_guard_matches_spec_edges` at (NEW, COOKING). -/
theorem courier_guard_matches_spec_edges_witness :
    courier_update_allowed "NEW" "COOKING" = true ↔
      ("NEW", "COOKING") ∈ specEdges :=
  courier_guard_matches_spec_edges "NEW" "COOKING" (by decide) (by decide)

/-- C1 counterexample: the admin status endpoint accepts the request to move
an order from DELIVERED back to NEW, although (DELIVERED, NEW) is not an
edge of the state machine — so not every status-mutating endpoint rejects
off-edge changes. -/
theorem admin_guard_accepts_off_edge :
    admin_update_allowed "DELIVERED" "NEW" = true ∧
      ("DELIVERED", "NEW") ∉ specEdges := by
  decide

/-- C1 amended: the courier endpoint accepts only spec edges, and the user
cancel endpoint (which writes CANCELLED) fires only from NEW among the five
statuses, which is a spec edge; but the admin endpoint accepts every one of
the five target statuses regardless of the current status. -/
theorem status_mutation_guards (current requested : String)
    (hc : current ∈ orderStatuses) (hr : requested ∈ orderStatuses) :
    (courier_update_allowed current requested = true →
        (current, requested) ∈ specEdges) ∧
      (cancel_allowed current = true → (current, "CANCELLED") ∈ specEdges) ∧
      admin_update_allowed current requested = true := by
  simp only [orderStatuses, List.mem_cons, List.not_mem_nil, or_false] at hc hr
  rcases hc with h | h | h | h | h <;> subst h <;>
    rcases hr with h | h | h | h | h <;> subst h <;> decide

/-- Witness for `status_mutation_guards` at (NEW, COOKING). -/
theorem status_mutation_guards_witness :
    (courier_update_allowed "NEW" "COOKING" = true →
        ("NEW", "COOKING") ∈ specEdges) ∧
      (cancel_allowed "NEW" = true → ("NEW", "CANCELLED") ∈ specEdges) ∧
      admin_update_allowed "NEW" "COOKING" = true :=
  status_mutation_guards "NEW" "COOKING" (by decide) (by decide)

/-! Promo evaluator lemmas. -/

/-- The not-started guard can never fire: `valid_from` always reads as
`None` in the model. -/
theorem beforeStart_eq_false (p : Promocode) (now : ℤ) :
    beforeStart p now = false := by
  simp [beforeStart, Promocode.valid_from]

/-- When the lookup, active, expiry and min-subtotal checks all pass, the
evaluator returns the clamped kind-dependent discount (or crashes on a NULL
value). -/
theorem calc_discount_passing (db : List Promocode) (c : String) (p : Promocode)
    (subtotal : ℚ) (now : ℤ)
    (hc : c ≠ "") (hfind : promoLookup db c = some p)
    (hact : p.is_active = true)
    (hend : afterEnd p now = false)
    (hmin : belowMin p subtotal = false) :
    calculate_discount db (some c) subtotal now =
      (computedDiscount p subtotal).map
        (fun d => { valid := true, discount := min d subtotal, reason := none }) := by
  simp only [calculate_discount]
  rw [if_neg hc, hfind]
  simp [hact, beforeStart_eq_false, hend, hmin]

/-- Every reason string the evaluator can ever attach to a result. -/
theorem calc_discount_reason_cases (db : List Promocode) (code : Option String)
    (subtotal : ℚ) (now : ℤ) (r : PromoValidationResult)
    (h : calculate_discount db code subtotal now = some r) :
    r.reason = none ∨ r.reason = some "invalid_or_inactive" ∨
      r.reason = some "expired" ∨ r.reason = some "min_subtotal_not_met" := by
  cases code with
  | none =>
    simp only [calculate_discount] at h
    cases h
    simp
  | some c =>
    simp only [calculate_discount] at h
    split at h
    · cases h; simp
    · cases hfind : promoLookup db c with
      | none => rw [hfind] at h; cases h; simp
      | some p =>
        rw [hfind] at h
        simp only [beforeStart_eq_false, Bool.false_eq_true, if_false] at h
        split at h
        · cases h; simp
        · split at h
          · cases h; simp
          · split at h
            · cases h; simp
            · rcases Option.map_eq_some'.mp h with ⟨d, _, rfl⟩
              simp

/-- C3: for a promo that passes the lookup, active, date-window and
min-subtotal checks, the discount is quantize2(subtotal·value/100) for a
percent promo and the raw value for an amount promo, in both cases clamped
to min(raw, subtotal); an amount promo worth more than the subtotal yields
discount = subtotal and total = 0. -/
theorem promo_discount_formula (db : List Promocode) (c : String) (p : Promocode)
    (subtotal : ℚ) (now : ℤ) (v : ℚ)
    (hc : c ≠ "") (hfind : promoLookup db c = some p)
    (hact : p.is_active = true)
    (hend : afterEnd p now = false)
    (hmin : belowMin p subtotal = false)
    (hv : p.value = some v) :
    (p.kind = "percent" →
        calculate_discount db (some c) subtotal now =
          some ⟨true, min (quantize2 (subtotal * v / 100)) subtotal, none⟩) ∧
      (p.kind = "amount" →
        calculate_discount db (some c) subtotal now =
          some ⟨true, min v subtotal, none⟩) ∧
      (p.kind = "amount" → subtotal < v →
        calculate_discount db (some c) subtotal now =
          some ⟨true, subtotal, none⟩ ∧ order_total subtotal subtotal = 0) := by
  have hpass := calc_discount_passing db c p subtotal now hc hfind hact hend hmin
  refine ⟨fun hk => ?_, fun hk => ?_, fun hk hlt => ⟨?_, ?_⟩⟩
  · rw [hpass]; simp +decide [computedDiscount, hk, hv]
  · rw [hpass]; simp +decide [computedDiscount, hk, hv]
  · rw [hpass]
    simp +decide [computedDiscount, hk, hv, min_eq_right hlt.le]
  · norm_num [order_total, quantize2, roundHalfEven]

/-- Witness for `promo_discount_formula`: a 30-unit amount promo on a
20-unit subtotal is clamped to 20 and the total is 0. -/
theorem promo_discount_formula_witness :
    calculate_discount [⟨"P", "amount", some 30, none, true, none⟩] (some "P") 20 0 =
      some ⟨true, 20, none⟩ ∧ order_total 20 20 = 0 :=
  (promo_discount_formula [⟨"P", "amount", some 30, none, true, none⟩] "P"
      ⟨"P", "amount", some 30, none, true, none⟩ 20 0 30 (by decide) rfl rfl rfl rfl
      rfl).2.2 rfl (by norm_num)

/-- C8 counterexample: the not-started branch is unreachable — no run of
the evaluator, on any stored promo table, any code, subtotal and instant,
ever yields reason not_started, because the model's valid_from property
always returns None. -/
theorem not_started_unreachable :
    ¬ ∃ (db : List Promocode) (code : Option String) (subtotal : ℚ) (now : ℤ)
        (r : PromoValidationResult),
        calculate_discount db code subtotal now = some r ∧
          r.reason = some "not_started" := by
  rintro ⟨db, code, subtotal, now, r, hr, hreason⟩
  rcases calc_discount_reason_cases db code subtotal now r hr with h | h | h | h <;>
    rw [h] at hreason <;> simp at hreason

/-- C8 amended: since the Promocode model's valid_from property is an
unpersisted placeholder that always returns None, the evaluator never
returns reason not_started; the branch is dead code. -/
theorem never_not_started (db : List Promocode) (code : Option String)
    (subtotal : ℚ) (now : ℤ) (r : PromoValidationResult)
    (h : calculate_discount db code subtotal now = some r) :
    r.reason ≠ some "not_started" := by
  rcases calc_discount_reason_cases db code subtotal now r h with hh | hh | hh | hh <;>
    rw [hh] <;> simp

/-- Witness for `never_not_started` on the empty-code run. -/
theorem never_not_started_witness :
    ({ valid := true, discount := 0, reason := none } : PromoValidationResult).reason ≠
      some "not_started" :=
  never_not_started [] none 0 0 { valid := true, discount := 0, reason := none } rfl

/-- C9 counterexample: with one stored inactive promo SAVE, looking up the
absent code MISSING and looking up SAVE itself produce the *same* reason
string invalid_or_inactive — not the distinct reasons CODE_NOT_FOUND and
INACTIVE the claim demands. -/
theorem promo_reasons_not_distinct :
    calculate_discount [⟨"SAVE", "percent", some 10, none, false, none⟩]
        (some "MISSING") 10 0 =
      some ⟨false, 0, some "invalid_or_inactive"⟩ ∧
      calculate_discount [⟨"SAVE", "percent", some 10, none, false, none⟩]
          (some "SAVE") 10 0 =
        some ⟨false, 0, some "invalid_or_inactive"⟩ := by
  constructor <;> norm_num +decide [calculate_discount, promoLookup, List.find?]

/-- C9 amended: the evaluator returns invalid with the single merged reason
invalid_or_inactive both when no promo matches the code and when the
matching promo is inactive; the two situations are not distinguished. -/
theorem invalid_or_inactive_merged (db : List Promocode) (c : String)
    (subtotal : ℚ) (now : ℤ) (hc : c ≠ "") :
    (promoLookup db c = none →
        calculate_discount db (some c) subtotal now =
          some ⟨false, 0, some "invalid_or_inactive"⟩) ∧
      ∀ p, promoLookup db c = some p → p.is_active = false →
        calculate_discount db (some c) subtotal now =
          some ⟨false, 0, some "invalid_or_inactive"⟩ := by
  constructor
  · intro hfind
    simp only [calculate_discount]
    rw [if_neg hc, hfind]
  · intro p hfind hinact
    simp only [calculate_discount]
    rw [if_neg hc, hfind]
    simp [hinact]

/-- Witness for `invalid_or_inactive_merged` on an inactive stored promo. -/
theorem invalid_or_inactive_merged_witness :
    calculate_discount [⟨"SV", "percent", some 10, none, false, none⟩]
        (some "SV") 10 0 =
      some ⟨false, 0, some "invalid_or_inactive"⟩ :=
  (invalid_or_inactive_merged [⟨"SV", "percent", some 10, none, false, none⟩]
      "SV" 10 0 (by decide)).2 ⟨"SV", "percent", some 10, none, false, none⟩ rfl rfl

/-- C10: a stored promo whose kind is neither percent nor amount, passing
the active, date-window and min-subtotal checks, is reported valid with a
discount of zero (the unknown kind silently degrades to no discount). -/
theorem unknown_kind_zero_discount (db : List Promocode) (c : String) (p : Promocode)
    (subtotal : ℚ) (now : ℤ)
    (hc : c ≠ "") (hfind : promoLookup db c = some p)
    (hact : p.is_active = true)
    (hend : afterEnd p now = false)
    (hmin : belowMin p subtotal = false)
    (hk1 : p.kind ≠ "percent") (hk2 : p.kind ≠ "amount")
    (hsub : 0 ≤ subtotal) :
    calculate_discount db (some c) subtotal now = some ⟨true, 0, none⟩ := by
  rw [calc_discount_passing db c p subtotal now hc hfind hact hend hmin]
  simp [computedDiscount, hk1, hk2, min_eq_left hsub]

/-! Pricing lemmas. -/

/-- Rounding half-to-even never takes a non-negative number negative. -/
theorem roundHalfEven_nonneg (x : ℚ) (hx : 0 ≤ x) : 0 ≤ roundHalfEven x := by
  have h0 : (0 : ℤ) ≤ ⌊x⌋ := Int.floor_nonneg.mpr hx
  unfold roundHalfEven
  dsimp only
  split_ifs <;> omega

/-- Quantizing to two decimal places preserves non-negativity. -/
theorem quantize2_nonneg (x : ℚ) (hx : 0 ≤ x) : 0 ≤ quantize2 x := by
  have h := roundHalfEven_nonneg (x * 100) (by positivity)
  have h2 : (0 : ℚ) ≤ (roundHalfEven (x * 100) : ℚ) := by exact_mod_cast h
  unfold quantize2
  exact div_nonneg h2 (by norm_num)

/-- A successful menu lookup returns a stored row. -/
theorem mem_of_menuLookup (menu : List MenuItemRec) (i : ℕ) (mi : MenuItemRec)
    (h : menuLookup menu i = some mi) : mi ∈ menu :=
  List.mem_of_find?_eq_some (by simpa [menuLookup] using h)

/-- A successful promo lookup returns a stored row. -/
theorem mem_of_promoLookup (db : List Promocode) (c : String) (p : Promocode)
    (h : promoLookup db c = some p) : p ∈ db :=
  List.mem_of_find?_eq_some (by simpa [promoLookup] using h)

/-- When every line references an active stored item with positive
quantity, the item loop returns the sum of the per-line quantized totals. -/
theorem priceLines_ok_of_valid (menu : List MenuItemRec) (items : List OrderItemReq)
    (h : ∀ it ∈ items, ∃ mi, menuLookup menu it.item_id = some mi ∧
        mi.is_active = true ∧ 0 < it.qty) :
    priceLines menu items =
      Except.ok ((items.map (fun it =>
        (menuLookup menu it.item_id).elim 0
          (fun mi => quantize2 (mi.price * it.qty)))).sum) := by
  induction items with
  | nil => rfl
  | cons it rest ih =>
    obtain ⟨mi, hmi, hact, hqty⟩ := h it (List.mem_cons_self it rest)
    have hrest := ih (fun x hx => h x (List.mem_cons_of_mem it hx))
    simp only [priceLines, hmi, hrest, List.map_cons, List.sum_cons]
    rw [if_neg (by simp [hact]), if_neg (not_le.mpr hqty)]
    simp [hmi]

/-- The item loop only ever fails with an invalid-item or invalid-quantity
error. -/
theorem priceLines_error_cases (menu : List MenuItemRec) (items : List OrderItemReq)
    (e : PricingError) (h : priceLines menu items = Except.error e) :
    (∃ i, e = PricingError.invalidItem i) ∨ e = PricingError.invalidQty := by
  induction items with
  | nil => cases h
  | cons it rest ih =>
    simp only [priceLines] at h
    cases hmi : menuLookup menu it.item_id with
    | none =>
      rw [hmi] at h; cases h; exact Or.inl ⟨it.item_id, rfl⟩
    | some mi =>
      rw [hmi] at h
      dsimp only at h
      by_cases hact : mi.is_active = false
      · rw [if_pos hact] at h; cases h; exact Or.inl ⟨it.item_id, rfl⟩
      · rw [if_neg hact] at h
        by_cases hqty : it.qty ≤ 0
        · rw [if_pos hqty] at h; cases h; exact Or.inr rfl
        · rw [if_neg hqty] at h
          cases hrest : priceLines menu rest with
          | error e2 => rw [hrest] at h; cases h; exact ih hrest
          | ok s => rw [hrest] at h; cases h

/-- A successful item loop yields a non-negative subtotal when menu prices
are non-negative. -/
theorem priceLines_nonneg (menu : List MenuItemRec) (items : List OrderItemReq)
    (s : ℚ) (hmenu : ∀ mi ∈ menu, 0 ≤ mi.price)
    (h : priceLines menu items = Except.ok s) : 0 ≤ s := by
  induction items generalizing s with
  | nil =>
    cases h
    norm_num
  | cons it rest ih =>
    simp only [priceLines] at h
    cases hmi : menuLookup menu it.item_id with
    | none => rw [hmi] at h; cases h
    | some mi =>
      rw [hmi] at h
      dsimp only at h
      by_cases hact : mi.is_active = false
      · rw [if_pos hact] at h; cases h
      · rw [if_neg hact] at h
        by_cases hqty : it.qty ≤ 0
        · rw [if_pos hqty] at h; cases h
        · rw [if_neg hqty] at h
          cases hrest : priceLines menu rest with
          | error e2 => rw [hrest] at h; cases h
          | ok s2 =>
            rw [hrest] at h
            cases h
            have hp : 0 ≤ mi.price := hmenu mi (mem_of_menuLookup menu it.item_id mi hmi)
            have hq : (0 : ℚ) ≤ (it.qty : ℚ) := by
              have h3 := (not_le.mp hqty).le
              exact_mod_cast h3
            have h1 : 0 ≤ quantize2 (mi.price * it.qty) :=
              quantize2_nonneg _ (mul_nonneg hp hq)
            have h2 := ih s2 hrest
            linarith

/-- Every discount the evaluator returns is either zero or the clamp of a
kind-computed discount of some stored promo. -/
theorem calc_discount_discount_cases (db : List Promocode) (code : Option String)
    (subtotal : ℚ) (now : ℤ) (r : PromoValidationResult)
    (h : calculate_discount db code subtotal now = some r) :
    r.discount = 0 ∨ ∃ p ∈ db, ∃ d, computedDiscount p subtotal = some d ∧
      r.discount = min d subtotal := by
  cases code with
  | none => simp only [calculate_discount] at h; cases h; left; rfl
  | some c =>
    simp only [calculate_discount] at h
    split at h
    · cases h; left; rfl
    · cases hfind : promoLookup db c with
      | none => rw [hfind] at h; cases h; left; rfl
      | some p =>
        rw [hfind] at h
        simp only [beforeStart_eq_false, Bool.false_eq_true, if_false] at h
        split at h
        · cases h; left; rfl
        · split at h
          · cases h; left; rfl
          · split at h
            · cases h; left; rfl
            · rcases Option.map_eq_some'.mp h with ⟨d, hd, rfl⟩
              exact Or.inr ⟨p, mem_of_promoLookup db c p hfind, d, hd, rfl⟩

/-- The kind-computed discount is non-negative when the promo value and
the subtotal are. -/
theorem computedDiscount_nonneg (p : Promocode) (subtotal d : ℚ)
    (hval : ∀ v, p.value = some v → 0 ≤ v) (hsub : 0 ≤ subtotal)
    (h : computedDiscount p subtotal = some d) : 0 ≤ d := by
  unfold computedDiscount at h
  split_ifs at h
  · cases hv : p.value with
    | none => rw [hv] at h; cases h
    | some v =>
      rw [hv] at h
      cases h
      have hv0 := hval v hv
      exact quantize2_nonneg _ (div_nonneg (mul_nonneg hsub hv0) (by norm_num))
  · cases hv : p.value with
    | none => rw [hv] at h; cases h
    | some v =>
      rw [hv] at h
      cases h
      exact hval _ hv
  · cases h
    norm_num

/-- C4 counterexample: pricing an empty list of line items with no promo
code does not succeed with zeros — create_order rejects it up front with
the items-required error. -/
theorem price_empty_rejected :
    create_order_pricing [] [] [] none 0 = Except.error PricingError.itemsRequired ∧
      create_order_pricing [] [] [] none 0 ≠
        Except.ok { subtotal := 0, discount := 0, total := 0 } := by
  refine ⟨rfl, ?_⟩
  intro h
  rw [create_order_pricing] at h
  simp at h

/-- C4 amended: an empty items list is rejected with the items-required
error; a nonempty list over valid lines (stored active items, positive
quantities) with no promo code prices successfully; and with no promo code
the pricing stage only ever fails with items-required, invalid-item or
invalid-quantity. -/
theorem pricing_empty_and_failure_modes (menu : List MenuItemRec)
    (items : List OrderItemReq) (db : List Promocode) (now : ℤ) :
    create_order_pricing menu [] db none now =
        Except.error PricingError.itemsRequired ∧
      (items ≠ [] →
        (∀ it ∈ items, ∃ mi, menuLookup menu it.item_id = some mi ∧
            mi.is_active = true ∧ 0 < it.qty) →
        ∃ r, create_order_pricing menu items db none now = Except.ok r) ∧
      ∀ e, create_order_pricing menu items db none now = Except.error e →
        e = PricingError.itemsRequired ∨ (∃ i, e = PricingError.invalidItem i) ∨
          e = PricingError.invalidQty := by
  refine ⟨rfl, fun hne hvalid => ?_, fun e he => ?_⟩
  · rw [create_order_pricing, if_neg hne, priceLines_ok_of_valid menu items hvalid]
    exact ⟨_, rfl⟩
  · by_cases hne : items = []
    · rw [create_order_pricing, if_pos hne] at he
      cases he
      left; rfl
    · rw [create_order_pricing, if_neg hne] at he
      cases hlines : priceLines menu items with
      | error e2 =>
        rw [hlines] at he
        cases he
        exact Or.inr (priceLines_error_cases menu items _ hlines)
      | ok s =>
        rw [hlines] at he
        dsimp only at he
        have hcd : calculate_discount db none s now =
            some { valid := true, discount := 0, reason := none } := rfl
        rw [hcd] at he
        cases he

/-- Witness for `pricing_empty_and_failure_modes`: one valid line prices
successfully. -/
theorem pricing_empty_and_failure_modes_witness :
    ∃ r, create_order_pricing [⟨1, 100, true⟩] [⟨1, 1⟩] [] none 0 = Except.ok r :=
  (pricing_empty_and_failure_modes [⟨1, 100, true⟩] [⟨1, 1⟩] [] 0).2.1
    (by simp)
    (by
      intro it hit
      simp only [List.mem_singleton] at hit
      subst hit
      exact ⟨⟨1, 100, true⟩, rfl, rfl, by norm_num⟩)

/-- C5: the subtotal is the sum of the per-line totals, each rounded to
two decimal places before summation; and on the spec's end-to-end example
(items 1000×2 and 500×1 with an active 10-percent promo, min subtotal 0,
no date bounds) the result is subtotal 2500, discount 250, total 2250. -/
theorem subtotal_rounds_each_line (menu : List MenuItemRec)
    (items : List OrderItemReq)
    (h : ∀ it ∈ items, ∃ mi, menuLookup menu it.item_id = some mi ∧
        mi.is_active = true ∧ 0 < it.qty) :
    priceLines menu items =
      Except.ok ((items.map (fun it =>
        (menuLookup menu it.item_id).elim 0
          (fun mi => quantize2 (mi.price * it.qty)))).sum) ∧
      create_order_pricing
          [⟨1, 1000, true⟩, ⟨2, 500, true⟩]
          [⟨1, 2⟩, ⟨2, 1⟩]
          [⟨"SAVE10", "percent", some 10, some 0, true, none⟩]
          (some "SAVE10") 0 =
        Except.ok { subtotal := 2500, discount := 250, total := 2250 } := by
  refine ⟨priceLines_ok_of_valid menu items h, ?_⟩
  have hA : menuLookup [⟨1, 1000, true⟩, ⟨2, 500, true⟩] 1 = some ⟨1, 1000, true⟩ := rfl
  have hB : menuLookup [⟨1, 1000, true⟩, ⟨2, 500, true⟩] 2 = some ⟨2, 500, true⟩ := rfl
  have h1 : priceLines [⟨1, 1000, true⟩, ⟨2, 500, true⟩] [⟨1, 2⟩, ⟨2, 1⟩] =
      Except.ok 2500 := by
    have hvalid2 : ∀ it ∈ ([⟨1, 2⟩, ⟨2, 1⟩] : List OrderItemReq),
        ∃ mi, menuLookup [⟨1, 1000, true⟩, ⟨2, 500, true⟩] it.item_id = some mi ∧
          mi.is_active = true ∧ 0 < it.qty := by
      intro it hit
      simp only [List.mem_cons, List.not_mem_nil, or_false] at hit
      rcases hit with rfl | rfl
      · exact ⟨_, hA, rfl, by norm_num⟩
      · exact ⟨_, hB, rfl, by norm_num⟩
    rw [priceLines_ok_of_valid _ _ hvalid2]
    simp only [List.map_cons, List.map_nil, List.sum_cons, List.sum_nil, hA, hB,
      Option.elim]
    norm_num [quantize2, roundHalfEven]
  have h2 : calculate_discount [⟨"SAVE10", "percent", some 10, some 0, true, none⟩]
      (some "SAVE10") 2500 0 = some ⟨true, 250, none⟩ := by
    norm_num +decide [calculate_discount, promoLookup, beforeStart, afterEnd,
      belowMin, computedDiscount, quantize2, roundHalfEven, Promocode.valid_from,
      Promocode.valid_to, Promocode.min_subtotal, List.find?, min_def]
  have h3 : order_total 2500 250 = 2250 := by
    norm_num [order_total, quantize2, roundHalfEven]
  rw [create_order_pricing, if_neg (by simp), h1]
  dsimp only
  rw [h2]
  simp [h3]

/-- Witness for `subtotal_rounds_each_line` on a single 1000×3 line. -/
theorem subtotal_rounds_each_line_witness :
    priceLines [⟨1, 1000, true⟩] [⟨1, 3⟩] =
      Except.ok (([⟨1, 3⟩] : List OrderItemReq).map (fun it =>
        (menuLookup [⟨1, 1000, true⟩] it.item_id).elim 0
          (fun mi => quantize2 (mi.price * it.qty)))).sum :=
  (subtotal_rounds_each_line [⟨1, 1000, true⟩] [⟨1, 3⟩]
    (by
      intro it hit
      simp only [List.mem_singleton] at hit
      subst hit
      exact ⟨⟨1, 1000, true⟩, rfl, rfl, by norm_num⟩)).1

/-- C7 counterexample: a stored amount promo with value -5 (no creation
path checks the sign on the generate endpoint) yields a pricing result
with discount -5 on a 10-unit subtotal, violating 0 ≤ discount. -/
theorem pricing_discount_can_be_negative :
    create_order_pricing [⟨1, 10, true⟩] [⟨1, 1⟩]
        [⟨"NEG", "amount", some (-5), none, true, none⟩] (some "NEG") 0 =
      Except.ok { subtotal := 10, discount := -5, total := 15 } ∧
      ¬ (0 : ℚ) ≤ -5 := by
  constructor
  · have hA : menuLookup [⟨1, 10, true⟩] 1 = some ⟨1, 10, true⟩ := rfl
    have h1 : priceLines [⟨1, 10, true⟩] [⟨1, 1⟩] = Except.ok 10 := by
      have hvalid2 : ∀ it ∈ ([⟨1, 1⟩] : List OrderItemReq),
          ∃ mi, menuLookup [⟨1, 10, true⟩] it.item_id = some mi ∧
            mi.is_active = true ∧ 0 < it.qty := by
        intro it hit
        simp only [List.mem_cons, List.not_mem_nil, or_false] at hit
        subst hit
        exact ⟨_, hA, rfl, by norm_num⟩
      rw [priceLines_ok_of_valid _ _ hvalid2]
      simp only [List.map_cons, List.map_nil, List.sum_cons, List.sum_nil, hA,
        Option.elim]
      norm_num [quantize2, roundHalfEven]
    have h2 : calculate_discount [⟨"NEG", "amount", some (-5), none, true, none⟩]
        (some "NEG") 10 0 = some ⟨true, -5, none⟩ := by
      norm_num +decide [calculate_discount, promoLookup, beforeStart, afterEnd,
        belowMin, computedDiscount, quantize2, roundHalfEven, Promocode.valid_from,
        Promocode.valid_to, Promocode.min_subtotal, List.find?, min_def]
    have h3 : order_total 10 (-5) = 15 := by
      norm_num [order_total, quantize2, roundHalfEven]
    rw [create_order_pricing, if_neg (by simp), h1]
    dsimp only
    rw [h2]
    simp [h3]
  · norm_num

/-- C7 amended: when menu prices are non-negative and every stored promo
value is non-negative, every pricing result satisfies 0 ≤ discount ≤
subtotal and total = quantize2(max(0, subtotal - discount)). -/
theorem pricing_result_invariants (menu : List MenuItemRec)
    (items : List OrderItemReq) (db : List Promocode) (code : Option String)
    (now : ℤ) (r : PricingResult)
    (hmenu : ∀ mi ∈ menu, 0 ≤ mi.price)
    (hval : ∀ p ∈ db, ∀ v, p.value = some v → 0 ≤ v)
    (h : create_order_pricing menu items db code now = Except.ok r) :
    0 ≤ r.discount ∧ r.discount ≤ r.subtotal ∧
      r.total = order_total r.subtotal r.discount := by
  rw [create_order_pricing] at h
  by_cases hne : items = []
  · rw [if_pos hne] at h; cases h
  · rw [if_neg hne] at h
    cases hlines : priceLines menu items with
    | error e => rw [hlines] at h; cases h
    | ok subtotal =>
      rw [hlines] at h
      dsimp only at h
      cases hcd : calculate_discount db code subtotal now with
      | none => rw [hcd] at h; cases h
      | some res =>
        rw [hcd] at h
        dsimp only at h
        cases h
        have hs : 0 ≤ subtotal := priceLines_nonneg menu items subtotal hmenu hlines
        have hdisc : 0 ≤ (if res.valid = true then res.discount else 0) ∧
            (if res.valid = true then res.discount else 0) ≤ subtotal := by
          by_cases hvld : res.valid = true
          · rw [if_pos hvld]
            rcases calc_discount_discount_cases db code subtotal now res hcd with
              h0 | ⟨p, hp, dd, hdd, hmin⟩
            · rw [h0]; exact ⟨le_refl 0, hs⟩
            · rw [hmin]
              have hdd0 : 0 ≤ dd :=
                computedDiscount_nonneg p subtotal dd (hval p hp) hs hdd
              exact ⟨le_min hdd0 hs, min_le_right dd subtotal⟩
          · rw [if_neg hvld]
            exact ⟨le_refl 0, hs⟩
        exact ⟨hdisc.1, hdisc.2, rfl⟩

/-- Witness for `pricing_result_invariants` on a one-line order without a
promo code. -/
theorem pricing_result_invariants_witness :
    0 ≤ ({ subtotal := 10, discount := 0, total := 10 } : PricingResult).discount ∧
      ({ subtotal := 10, discount := 0, total := 10 } : PricingResult).discount ≤
        ({ subtotal := 10, discount := 0, total := 10 } : PricingResult).subtotal ∧
      ({ subtotal := 10, discount := 0, total := 10 } : PricingResult).total =
        order_total ({ subtotal := 10, discount := 0, total := 10 } : PricingResult).subtotal
          ({ subtotal := 10, discount := 0, total := 10 } : PricingResult).discount :=
  pricing_result_invariants [⟨1, 10, true⟩] [⟨1, 1⟩] [] none 0
    { subtotal := 10, discount := 0, total := 10 }
    (by
      intro mi hmi
      simp only [List.mem_singleton] at hmi
      subst hmi
      norm_num)
    (by simp)
    (by
      have hA : menuLookup [⟨1, 10, true⟩] 1 = some ⟨1, 10, true⟩ := rfl
      have h1 : priceLines [⟨1, 10, true⟩] [⟨1, 1⟩] = Except.ok 10 := by
        have hvalid2 : ∀ it ∈ ([⟨1, 1⟩] : List OrderItemReq),
            ∃ mi, menuLookup [⟨1, 10, true⟩] it.item_id = some mi ∧
              mi.is_active = true ∧ 0 < it.qty := by
          intro it hit
          simp only [List.mem_cons, List.not_mem_nil, or_false] at hit
          subst hit
          exact ⟨_, hA, rfl, by norm_num⟩
        rw [priceLines_ok_of_valid _ _ hvalid2]
        simp only [List.map_cons, List.map_nil, List.sum_cons, List.sum_nil, hA,
          Option.elim]
        norm_num [quantize2, roundHalfEven]
      have h2 : calculate_discount [] none 10 0 =
          some { valid := true, discount := 0, reason := none } := rfl
      have h3 : order_total 10 0 = 10 := by
        norm_num [order_total, quantize2, roundHalfEven]
      rw [create_order_pricing, if_neg (by simp), h1]
      dsimp only
      rw [h2]
      simp [h3])

/-! Business hours lemmas. -/

/-- The fueled scan loop is the first hit of the candidate-offset list. -/
theorem scan_next_open_eq_findSome (hours : ℕ → Option BusinessHours)
    (day : ℕ) (fuel i : ℕ) :
    scan_next_open hours day i fuel =
      (daysFrom i fuel).findSome? (fun j =>
        match hours ((day + j) % 7) with
        | some h =>
          if h.is_closed = false then h.open_time.map (fun ot => (day + j, ot))
          else none
        | none => none) := by
  induction fuel generalizing i with
  | zero => rfl
  | succ fuel ih =>
    simp only [scan_next_open, daysFrom, List.findSome?_cons]
    cases hh : hours ((day + i) % 7) with
    | none => exact ih (i + 1)
    | some h =>
      dsimp only
      by_cases hcl : h.is_closed = false
      · rw [if_pos hcl, if_pos hcl]
        cases hop : h.open_time with
        | none => exact ih (i + 1)
        | some ot => rfl
      · rw [if_neg hcl, if_neg hcl]
        exact ih (i + 1)

/-- The source's 7-iteration scan loop computes exactly the spec's
first-opening-instant-within-7-days search. -/
theorem scan_eq_firstOpenForward (hours : ℕ → Option BusinessHours) (day : ℕ) :
    scan_next_open hours day 1 7 = firstOpenForward hours day := by
  rw [scan_next_open_eq_findSome hours day 7 1]
  rfl

/-- C6: on a weekday whose entry is not closed and has both times set, the
gate is open exactly when open_time ≤ tod ≤ close_time (inclusive); when
tod < open_time it reports closed with reason before_opening and today's
opening instant as next_open_time; when close_time < tod it reports closed
with reason after_closing and the forward-scan result, which equals the
first opening instant within the next 7 days. -/
theorem business_hours_check (hours : ℕ → Option BusinessHours)
    (day tod ot ct : ℕ) (bh : BusinessHours)
    (hbh : hours (day % 7) = some bh)
    (hcl : bh.is_closed = false)
    (hot : bh.open_time = some ot)
    (hct : bh.close_time = some ct)
    (hwf : ot ≤ ct) :
    ((is_open_at_time hours day tod).is_open = true ↔ ot ≤ tod ∧ tod ≤ ct) ∧
      (tod < ot →
        is_open_at_time hours day tod =
          ⟨false, some "before_opening", some (day, ot)⟩) ∧
      (ct < tod →
        is_open_at_time hours day tod =
          ⟨false, some "after_closing", scan_next_open hours day 1 7⟩) ∧
      scan_next_open hours day 1 7 = firstOpenForward hours day := by
  have hred : is_open_at_time hours day tod =
      if ot ≤ tod ∧ tod ≤ ct then ⟨true, none, none⟩
      else ⟨false, some (if tod < ot then "before_opening" else "after_closing"),
        get_next_open_time hours day tod⟩ := by
    simp only [is_open_at_time, hbh, hcl, Bool.false_eq_true, if_false, hot, hct]
  refine ⟨?_, fun hlt => ?_, fun hgt => ?_, scan_eq_firstOpenForward hours day⟩
  · rw [hred]
    by_cases hc : ot ≤ tod ∧ tod ≤ ct
    · simp [hc]
    · simp [hc]
  · have hc : ¬(ot ≤ tod ∧ tod ≤ ct) := fun hand => absurd hlt (not_lt.mpr hand.1)
    have hnext : get_next_open_time hours day tod = some (day, ot) := by
      simp [get_next_open_time, hbh, hcl, hot, hlt]
    rw [hred, if_neg hc, if_pos hlt, hnext]
  · have hc : ¬(ot ≤ tod ∧ tod ≤ ct) := fun hand => absurd hgt (not_lt.mpr hand.2)
    have hno : ¬ tod < ot := not_lt.mpr (le_trans hwf hgt.le)
    have hnext : get_next_open_time hours day tod = scan_next_open hours day 1 7 := by
      simp [get_next_open_time, hbh, hcl, hot, hno]
    rw [hred, if_neg hc, if_neg hno, hnext]

/-- Witness for `business_hours_check`: Monday 08:59 on the default
schedule is closed with reason before_opening and next opening Monday
09:00 (the spec section 8 example). -/
theorem business_hours_check_witness :
    is_open_at_time default_hours 0 539 =
      ⟨false, some "before_opening", some (0, 540)⟩ :=
  (business_hours_check default_hours 0 539 540 1320 ⟨0, some 540, some 1320, false⟩
      rfl rfl rfl rfl (by norm_num)).2.1 (by norm_num)

/-- Witness for `unknown_kind_zero_discount` with kind "bogus". -/
theorem unknown_kind_zero_discount_witness :
    calculate_discount [⟨"X", "bogus", some 5, none, true, none⟩] (some "X") 7 0 =
      some ⟨true, 0, none⟩ :=
  unknown_kind_zero_discount [⟨"X", "bogus", some 5, none, true, none⟩] "X"
    ⟨"X", "bogus", some 5, none, true, none⟩ 7 0 (by decide) rfl rfl rfl rfl
    (by decide) (by decide) (by norm_num)

end Appetit
